import Mathlib

/-!
Shallow embedding of the ShellCast repository (Go) for specification checking.

The embedding mirrors, definition by definition, the source files:
  config.go        : Config, ThemePreset, GetDefaultConfig, GetThemePresets,
                     ApplyTheme, LoadConfig
  shellcast.go     : ShellCast (state), NewShellCast, ExecuteCommand,
                     formatOutput, StartStreaming, StopStreaming,
                     StartRecording, StopRecording, ExecuteSplitCommands,
                     Cleanup

Conventions of the embedding:
  - Wall-clock time is modelled as Nat (seconds).  Calls to time.Now and to
    time formatting are environment inputs: each operation receives the
    rendered strings and, where the code computes with times, the numeric
    instant of the call.
  - File-system and process effects are environment inputs (did the write
    succeed, which pid did the spawn produce, which lines did the child
    emit on each stream) and recorded outputs (the list of successful file
    operations an execution performs).
  - Go string concatenation is String.append; the Go append-only output
    buffer is a String, and the units appended to it are additionally
    tracked as a list so theorems can speak about individual lines.
-/

/-- Mirrors the Config struct of config.go (field for field). -/
structure Config where
  RTMPUrl : String
  FFmpegPath : String
  FontSize : Int
  FontColor : String
  BackgroundColor : String
  OutputFile : String
  ShowTimestamp : Bool
  TimestampFormat : String
  ScreenWidth : Int
  ScreenHeight : Int
  RecordSession : Bool
  RecordPath : String
  SplitScreen : Bool
  SplitCommands : List String
  ThemeName : String
deriving Repr, DecidableEq, Inhabited

/-- Mirrors the ThemePreset struct of config.go. -/
structure ThemePreset where
  Name : String
  FontColor : String
  BackgroundColor : String
  BorderColor : String
  HighlightColor : String
deriving Repr, DecidableEq, Inhabited

/-- GetDefaultConfig of config.go.  Fields the Go code leaves at their zero
value are the empty string, 0, false or the empty list here. -/
def GetDefaultConfig : Config :=
  { RTMPUrl := ""
    FFmpegPath := "ffmpeg"
    FontSize := 24
    FontColor := "white"
    BackgroundColor := "black"
    OutputFile := ""
    ShowTimestamp := false
    TimestampFormat := "2006-01-02 15:04:05"
    ScreenWidth := 1280
    ScreenHeight := 720
    RecordSession := false
    RecordPath := "./recordings"
    SplitScreen := false
    SplitCommands := []
    ThemeName := "default" }

/-- GetThemePresets of config.go, as a lookup from theme key to preset
(the Go map literal, key by key). -/
def GetThemePresets : String → Option ThemePreset
  | "default" => some
      { Name := "Default", FontColor := "white", BackgroundColor := "black",
        BorderColor := "gray", HighlightColor := "blue" }
  | "hacker" => some
      { Name := "Hacker", FontColor := "lime", BackgroundColor := "black",
        BorderColor := "green", HighlightColor := "red" }
  | "solarized" => some
      { Name := "Solarized", FontColor := "#839496", BackgroundColor := "#002b36",
        BorderColor := "#586e75", HighlightColor := "#268bd2" }
  | "light" => some
      { Name := "Light", FontColor := "#222222", BackgroundColor := "#f9f9f9",
        BorderColor := "#dddddd", HighlightColor := "#0066cc" }
  | "monokai" => some
      { Name := "Monokai", FontColor := "#f8f8f2", BackgroundColor := "#272822",
        BorderColor := "#75715e", HighlightColor := "#f92672" }
  | _ => none

/-- ApplyTheme of config.go.  The Go method mutates the receiver and returns
error; here the updated Config is returned on success, and an error return
means the receiver was not touched.  (Quote marks of the Go error text are
omitted.) -/
def Config.ApplyTheme (c : Config) (themeName : String) : Except String Config :=
  match GetThemePresets themeName with
  | none => Except.error ("theme " ++ themeName ++ " not found")
  | some theme =>
      Except.ok { c with
        ThemeName := themeName
        FontColor := theme.FontColor
        BackgroundColor := theme.BackgroundColor }

/-- Outcome of the os.ReadFile call inside LoadConfig: the file is absent,
unreadable, or readable with the given contents. -/
inductive ReadOutcome where
  | notExist
  | readErr (msg : String)
  | content (data : String)
deriving Repr, DecidableEq

/-- LoadConfig of config.go.  json.Unmarshal is an environment input: given
the file data and the Config variable it fills (which LoadConfig initialises
from GetDefaultConfig), it yields an optional error together with the state
the variable ends up in (Go may leave it part-way filled on error). -/
def LoadConfig (readResult : ReadOutcome)
    (unmarshal : String → Config → Option String × Config) :
    Config × Option String :=
  let config := GetDefaultConfig
  match readResult with
  | ReadOutcome.notExist => (config, none)
  | ReadOutcome.readErr m => (config, some ("error reading config file: " ++ m))
  | ReadOutcome.content data =>
      match unmarshal data config with
      | (some e, c) => (c, some ("error unmarshaling config: " ++ e))
      | (none, c) => (c, none)

/-- The ShellCast struct of shellcast.go.  The sync.Mutex has no observable
content; the os.Process handle is modelled by its pid.  startTime is the
time.Now() taken in NewShellCast. -/
structure ShellCast where
  config : Config
  outputBuffer : String
  streaming : Bool
  streamProc : Option Nat
  recording : Bool
  recordPath : String
  startTime : Nat
deriving Repr, DecidableEq, Inhabited

/-- NewShellCast of shellcast.go, with the wall-clock instant of the call
supplied as t0 (the Go code stores time.Now() there).  outputBuffer and
recordPath are the Go zero values. -/
def NewShellCast (config : Config) (t0 : Nat) : ShellCast :=
  { config := config
    outputBuffer := ""
    streaming := false
    streamProc := none
    recording := false
    recordPath := ""
    startTime := t0 }

/-- Go strings.Split with a one-character separator, on the character list:
Split never yields an empty slice; splitting the empty string yields one
empty field. -/
def splitChars (sep : Char) : List Char → List (List Char)
  | [] => [[]]
  | c :: rest =>
      let r := splitChars sep rest
      if c = sep then [] :: r
      else
        match r with
        | [] => [[c]]
        | h :: t => (c :: h) :: t

/-- strings.Split(command, " ") as used by ExecuteCommand and
ExecuteSplitCommands. -/
def splitGo (s : String) : List String :=
  (splitChars ' ' s.data).map (fun l => String.mk l)

/-- formatOutput of shellcast.go.  The rendered time.Now().Format(...) value
is the environment input ts, consumed only when ShowTimestamp is set. -/
def formatOutput (s : ShellCast) (ts : String) (line : String) : String :=
  if s.config.ShowTimestamp then "[" ++ ts ++ "] " ++ line
  else line

/-- A successful file-system side effect performed by an operation. -/
inductive FileOp where
  | write (path text : String)
  | append (path text : String)
  | remove (path : String)
  | mkdirAll (path : String)
  | createTemp (name : String)
deriving Repr, DecidableEq

/-- What the drain goroutines of one ExecuteCommand observe, as decided by
the environment: pipe creation for stdout or stderr failed, cmd.Start
failed, or the child ran, emitted the given line lists on its two streams,
and cmd.Wait returned the given optional error (none = exit status 0). -/
inductive SpawnOutcome where
  | stdoutPipeErr (msg : String)
  | stderrPipeErr (msg : String)
  | startErr (msg : String)
  | started (stdoutLines stderrLines : List String) (exitErr : Option String)
deriving Repr, DecidableEq

/-- bufio.NewScanner with the default buffer delivers lines only up to the
first one whose byte length reaches 64 KiB (65536): there Scan reports
ErrTooLong by returning false, the read loop of shellcast.go ends silently,
and that line and all lines after it on the same stream are dropped.  Line
lengths are counted in characters here; for the inputs considered they are
single-byte. -/
def scannerLines (ls : List String) : List String :=
  ls.takeWhile (fun l => decide (l.length < 65536))

/-- One interleaving of the two concurrent stream drains: each Bool of the
schedule picks the stream that publishes next (true = stdout); an exhausted
stream yields its turn, and whatever the schedule leaves unconsumed is
flushed stdout first. -/
def mergeSched : List Bool → List (Bool × String) → List (Bool × String) → List (Bool × String)
  | [], xs, ys => xs ++ ys
  | true :: sch, xs, ys =>
      match xs with
      | [] => mergeSched sch [] ys
      | x :: xs => x :: mergeSched sch xs ys
  | false :: sch, xs, ys =>
      match ys with
      | [] => mergeSched sch xs []
      | y :: ys => y :: mergeSched sch xs ys

/-- Accumulated observable effects of a sequence of publish steps: the
buffer string as the Go code maintains it, the list of units appended to it
(each one formatted line plus newline), the successful file appends, and the
lines printed to the console (stdout and stderr). -/
structure PublishAcc where
  buffer : String
  appendedUnits : List String
  writes : List FileOp
  conOut : List String
  conErr : List String
deriving Repr, DecidableEq, Inhabited

/-- The body of the per-line drain loop of ExecuteCommand (and, with the tag
folded into the raw line, of ExecuteSplitCommands): format, print to the
origin console stream, append to the shared buffer under the mutex, and
append to the capture and recording files iff the respective flag is set
and the path nonempty. -/
def publishOne (s : ShellCast) (ts : String) (isStdout : Bool) (line : String)
    (acc : PublishAcc) : PublishAcc :=
  let formattedLine := formatOutput s ts line
  let acc :=
    if isStdout then { acc with conOut := acc.conOut ++ [formattedLine] }
    else { acc with conErr := acc.conErr ++ [formattedLine] }
  let acc := { acc with
    buffer := acc.buffer ++ formattedLine ++ "\n"
    appendedUnits := acc.appendedUnits ++ [formattedLine ++ "\n"] }
  let acc :=
    if s.streaming && (s.config.OutputFile != "") then
      { acc with writes := acc.writes ++ [FileOp.append s.config.OutputFile (formattedLine ++ "\n")] }
    else acc
  if s.recording && (s.recordPath != "") then
    { acc with writes := acc.writes ++ [FileOp.append s.recordPath (formattedLine ++ "\n")] }
  else acc

/-- Runs publishOne over a merged event list; the n-th publish of the run
reads the clock oracle at n (the rendered time.Now() of that instant). -/
def publishAll (s : ShellCast) (clock : Nat → String) :
    List (Bool × String) → Nat → PublishAcc → PublishAcc
  | [], _, acc => acc
  | ev :: rest, n, acc => publishAll s clock rest (n + 1) (publishOne s (clock n) ev.1 ev.2 acc)

/-- Result of one ExecuteCommand run: the state after it (only outputBuffer
can change), the returned error, whether cmd.Start was reached, and the
observable publish effects. -/
structure ExecResult where
  state : ShellCast
  result : Option String
  startAttempted : Bool
  effects : PublishAcc
deriving Repr, DecidableEq, Inhabited

/-- ExecuteCommand of shellcast.go.  The command string is split on spaces;
the (unreachable) empty-slice guard returns the empty-command error; pipe
creation, cmd.Start and the child behaviour are the environment input;
the two stream drains are interleaved per the schedule; the return value is
cmd.Wait().  Lines are what the two bufio scanners deliver (scannerLines). -/
def ShellCast.ExecuteCommand (s : ShellCast) (clock : Nat → String) (command : String)
    (behavior : SpawnOutcome) (schedule : List Bool) : ExecResult :=
  let parts := splitGo command
  let acc0 : PublishAcc :=
    { buffer := s.outputBuffer, appendedUnits := [], writes := [], conOut := [], conErr := [] }
  if parts.length = 0 then
    { state := s, result := some "empty command", startAttempted := false, effects := acc0 }
  else
    match behavior with
    | SpawnOutcome.stdoutPipeErr m =>
        { state := s, result := some ("error creating stdout pipe: " ++ m),
          startAttempted := false, effects := acc0 }
    | SpawnOutcome.stderrPipeErr m =>
        { state := s, result := some ("error creating stderr pipe: " ++ m),
          startAttempted := false, effects := acc0 }
    | SpawnOutcome.startErr m =>
        { state := s, result := some ("error starting command: " ++ m),
          startAttempted := true, effects := acc0 }
    | SpawnOutcome.started outL errL exitErr =>
        let merged := mergeSched schedule
          ((scannerLines outL).map (fun l => (true, l)))
          ((scannerLines errL).map (fun l => (false, l)))
        let acc := publishAll s clock merged 0 acc0
        { state := { s with outputBuffer := acc.buffer },
          result := exitErr, startAttempted := true, effects := acc }

instance {ε α : Type} [DecidableEq ε] [DecidableEq α] : DecidableEq (Except ε α) := fun
  | Except.error a, Except.error b =>
      if h : a = b then Decidable.isTrue (by rw [h])
      else Decidable.isFalse (by intro hh; exact h (Except.error.injEq a b ▸ hh))
  | Except.error _, Except.ok _ => Decidable.isFalse (by intro hh; exact Except.noConfusion hh)
  | Except.ok _, Except.error _ => Decidable.isFalse (by intro hh; exact Except.noConfusion hh)
  | Except.ok a, Except.ok b =>
      if h : a = b then Decidable.isTrue (by rw [h])
      else Decidable.isFalse (by intro hh; exact h (Except.ok.injEq a b ▸ hh))

/-- Environment of one StartStreaming call: the os.CreateTemp outcome (the
fresh file name, or an error), the os.WriteFile outcome for the buffer
flush, and the cmd.Start outcome for the encoder (its pid, or an error). -/
structure StreamStartEnv where
  tempName : Except String String
  writeErr : Option String
  startPid : Except String Nat
deriving Repr, DecidableEq

/-- Environment of one StopStreaming call: the Process.Kill outcome. -/
structure StreamStopEnv where
  killErr : Option String
deriving Repr, DecidableEq

/-- Environment of one StartRecording call: whether os.Stat finds the
recordings directory, the os.MkdirAll outcome, the instant of the call and
its two renderings (filename timestamp and header time), the joined os.Args
line, and the os.WriteFile outcome for the header. -/
structure RecStartEnv where
  dirExists : Bool
  mkdirErr : Option String
  now : Nat
  nowName : String
  headerNow : String
  cmdline : String
  writeErr : Option String
deriving Repr, DecidableEq

/-- Environment of one StopRecording call: the instant of the call, its
rendering for the footer, and the appendToFile outcome. -/
structure RecStopEnv where
  now : Nat
  endNow : String
  appendErr : Option String
deriving Repr, DecidableEq

/-- The 80-dash separator line of the recording header and footer. -/
def dashes80 : String := String.mk (List.replicate 80 '-')

/-- filepath.Join of base and name as used by StartRecording.  (Go also
lexically cleans the joined path; the cleaning is not modelled, it never
empties a nonempty path.) -/
def joinPath (base name : String) : String :=
  if base = "" then name else base ++ "/" ++ name

/-- The recording header block written by StartRecording. -/
def recordingHeader (headerNow cmdline : String) : String :=
  "ShellCast Recording - Started at " ++ headerNow ++ "\n"
    ++ "Command: " ++ cmdline ++ "\n"
    ++ dashes80 ++ "\n\n"

/-- The recording footer block written by StopRecording; the duration is
time.Since(s.startTime) rounded to seconds, rendered as seconds. -/
def recordingFooter (endNow : String) (durationSec : Nat) : String :=
  "\n\n" ++ dashes80 ++ "\n"
    ++ "Recording ended at " ++ endNow ++ "\n"
    ++ "Duration: " ++ toString durationSec ++ "s\n"

/-- StartStreaming of shellcast.go: guard on the streaming flag, create a
temp capture file iff OutputFile is empty (recording its name in the
config), flush the buffer to the capture file with os.WriteFile, start the
encoder, and only on successful start set streamProc and streaming. -/
def ShellCast.StartStreaming (s : ShellCast) (env : StreamStartEnv) :
    ShellCast × Option String × List FileOp :=
  if s.streaming then (s, some "already streaming", [])
  else
    let created : Except String (ShellCast × List FileOp) :=
      if s.config.OutputFile = "" then
        match env.tempName with
        | Except.error m => Except.error ("error creating temp file: " ++ m)
        | Except.ok name =>
            Except.ok ({ s with config := { s.config with OutputFile := name } },
              [FileOp.createTemp name])
      else Except.ok (s, [])
    match created with
    | Except.error m => (s, some m, [])
    | Except.ok (s1, ops1) =>
        match env.writeErr with
        | some m => (s1, some ("error writing to output file: " ++ m), ops1)
        | none =>
            let ops2 := ops1 ++ [FileOp.write s1.config.OutputFile s1.outputBuffer]
            match env.startPid with
            | Except.error m => (s1, some ("error starting FFmpeg: " ++ m), ops2)
            | Except.ok pid =>
                ({ s1 with streamProc := some pid, streaming := true }, none, ops2)

/-- StopStreaming of shellcast.go: guard, kill the encoder (an error there
returns with the state untouched), clear the streaming state, and remove
the capture file unconditionally whenever OutputFile is nonempty, clearing
the OutputFile field. -/
def ShellCast.StopStreaming (s : ShellCast) (env : StreamStopEnv) :
    ShellCast × Option String × List FileOp :=
  if !s.streaming || s.streamProc.isNone then (s, some "not streaming", [])
  else
    match env.killErr with
    | some m => (s, some ("error killing FFmpeg process: " ++ m), [])
    | none =>
        let s1 := { s with streaming := false, streamProc := none }
        if s1.config.OutputFile != "" then
          ({ s1 with config := { s1.config with OutputFile := "" } }, none,
            [FileOp.remove s1.config.OutputFile])
        else (s1, none, [])

/-- StartRecording of shellcast.go: guard, create the recordings directory
if os.Stat reports it absent, set recordPath from the timestamped filename,
write the header; only on a successful header write set recording. -/
def ShellCast.StartRecording (s : ShellCast) (env : RecStartEnv) :
    ShellCast × Option String × List FileOp :=
  if s.recording then (s, some "already recording", [])
  else
    let mk : Except String (List FileOp) :=
      if !env.dirExists then
        match env.mkdirErr with
        | some m => Except.error ("error creating recordings directory: " ++ m)
        | none => Except.ok [FileOp.mkdirAll s.config.RecordPath]
      else Except.ok []
    match mk with
    | Except.error m => (s, some m, [])
    | Except.ok ops1 =>
        let filename := "shellcast_" ++ env.nowName ++ ".txt"
        let rpath := joinPath s.config.RecordPath filename
        let s1 := { s with recordPath := rpath }
        match env.writeErr with
        | some m => (s1, some ("error writing to record file: " ++ m), ops1)
        | none =>
            ({ s1 with recording := true }, none,
              ops1 ++ [FileOp.write rpath (recordingHeader env.headerNow env.cmdline)])

/-- StopRecording of shellcast.go: guard, append the footer (whose duration
is env.now minus s.startTime, the instant NewShellCast stored), and clear
the recording flag.  recordPath is not cleared. -/
def ShellCast.StopRecording (s : ShellCast) (env : RecStopEnv) :
    ShellCast × Option String × List FileOp :=
  if !s.recording then (s, some "not recording", [])
  else
    let footer := recordingFooter env.endNow (env.now - s.startTime)
    match env.appendErr with
    | some m => (s, some ("error writing to record file: " ++ m), [])
    | none => ({ s with recording := false }, none, [FileOp.append s.recordPath footer])

/-- Cleanup of shellcast.go: StopStreaming if streaming, then StopRecording
if recording; errors of the two stops are dropped. -/
def ShellCast.Cleanup (s : ShellCast) (e1 : StreamStopEnv) (e2 : RecStopEnv) :
    ShellCast × List FileOp :=
  let p1 := if s.streaming then s.StopStreaming e1 else (s, none, [])
  let s1 := p1.1
  let p2 := if s1.recording then s1.StopRecording e2 else (s1, none, [])
  (p2.1, p1.2.2 ++ p2.2.2)

/-- One invocation of a session lifecycle operation, with its environment. -/
inductive SessionOp where
  | strmStart (env : StreamStartEnv)
  | strmStop (env : StreamStopEnv)
  | recStart (env : RecStartEnv)
  | recStop (env : RecStopEnv)
  | clean (e1 : StreamStopEnv) (e2 : RecStopEnv)
deriving Repr, DecidableEq

/-- The state reached after one session operation (results and file
operations dropped). -/
def applyOp (s : ShellCast) : SessionOp → ShellCast
  | SessionOp.strmStart env => (s.StartStreaming env).1
  | SessionOp.strmStop env => (s.StopStreaming env).1
  | SessionOp.recStart env => (s.StartRecording env).1
  | SessionOp.recStop env => (s.StopRecording env).1
  | SessionOp.clean e1 e2 => (s.Cleanup e1 e2).1

/-- The state reached from a fresh session by a sequence of lifecycle
operations. -/
def runOps (config : Config) (t0 : Nat) (ops : List SessionOp) : ShellCast :=
  ops.foldl applyOp (NewShellCast config t0)

/-- Observable events of one command of an ExecuteSplitCommands run: its
console lines on both streams (including the error and completion
messages), the units its drains append to the shared buffer, its file
appends, and whether its goroutine reached the final completion message. -/
structure SplitCmdEvents where
  conOut : List String
  conErr : List String
  bufferAppends : List String
  writes : List FileOp
  completed : Bool
deriving Repr, DecidableEq, Inhabited

/-- The body of one command goroutine of ExecuteSplitCommands: build the
[CMD<n>] tag, split the command, (dead) empty guard, pipes, start, drain
the two streams with the tag prepended to every raw line before
formatOutput, and print the completion message after cmd.Wait (whose error,
if any, is discarded). -/
def runSplitOne (s : ShellCast) (clock : Nat → String) (tag : String)
    (command : String) (behavior : SpawnOutcome) (schedule : List Bool) :
    SplitCmdEvents :=
  let parts := splitGo command
  if parts.length = 0 then
    { conOut := [tag ++ "Empty command"], conErr := [], bufferAppends := [],
      writes := [], completed := false }
  else
    match behavior with
    | SpawnOutcome.stdoutPipeErr m =>
        { conOut := [], conErr := [tag ++ "Error creating stdout pipe: " ++ m],
          bufferAppends := [], writes := [], completed := false }
    | SpawnOutcome.stderrPipeErr m =>
        { conOut := [], conErr := [tag ++ "Error creating stderr pipe: " ++ m],
          bufferAppends := [], writes := [], completed := false }
    | SpawnOutcome.startErr m =>
        { conOut := [], conErr := [tag ++ "Error starting command: " ++ m],
          bufferAppends := [], writes := [], completed := false }
    | SpawnOutcome.started outL errL _ =>
        let merged := mergeSched schedule
          ((scannerLines outL).map (fun l => (true, tag ++ l)))
          ((scannerLines errL).map (fun l => (false, tag ++ l)))
        let acc := publishAll s clock merged 0
          { buffer := "", appendedUnits := [], writes := [], conOut := [], conErr := [] }
        { conOut := acc.conOut ++ [tag ++ "Command completed"],
          conErr := acc.conErr,
          bufferAppends := acc.appendedUnits,
          writes := acc.writes,
          completed := true }

/-- ExecuteSplitCommands of shellcast.go: reject an empty command list,
otherwise run one goroutine per command (index i carrying tag [CMD(i+1)] and
its own environment and schedule), wait for all of them, and return nil.
The function returns the Go error value together with the per-command
events in input order; the global interleaving of the per-command effects
is left unconstrained. -/
def ShellCast.ExecuteSplitCommands (s : ShellCast) (clock : Nat → String)
    (commands : List String) (envs : Nat → SpawnOutcome)
    (schedules : Nat → List Bool) : Option String × List SplitCmdEvents :=
  if commands.length = 0 then (some "no commands provided for split screen", [])
  else
    (none,
      (List.enumFrom 0 commands).map (fun p =>
        runSplitOne s clock ("[CMD" ++ toString (p.1 + 1) ++ "] ") p.2
          (envs p.1) (schedules p.1)))

/-! ## Supporting lemmas -/

lemma splitChars_ne_nil (sep : Char) (l : List Char) : splitChars sep l ≠ [] := by
  induction l with
  | nil => simp [splitChars]
  | cons c rest ih =>
      unfold splitChars
      by_cases h : c = sep
      · simp [h]
      · simp only [if_neg h]
        cases splitChars sep rest <;> simp

lemma splitGo_ne_nil (s : String) : splitGo s ≠ [] := by
  intro h
  exact splitChars_ne_nil ' ' s.data (List.map_eq_nil_iff.mp h)

lemma splitGo_length_ne_zero (s : String) : (splitGo s).length ≠ 0 := by
  intro h
  exact splitGo_ne_nil s (List.length_eq_zero.mp h)

lemma mergeSched_perm (sch : List Bool) (xs ys : List (Bool × String)) :
    List.Perm (mergeSched sch xs ys) (xs ++ ys) := by
  induction sch generalizing xs ys with
  | nil => simp [mergeSched]
  | cons b sch ih =>
      cases b
      · cases ys with
        | nil => simpa [mergeSched] using ih xs []
        | cons y ys =>
            simpa [mergeSched] using ((ih xs ys).cons y).trans List.perm_middle.symm
      · cases xs with
        | nil => simpa [mergeSched] using ih [] ys
        | cons x xs =>
            simpa [mergeSched] using (ih xs ys).cons x

lemma mem_mergeSched {sch : List Bool} {xs ys : List (Bool × String)}
    {a : Bool × String} (h : a ∈ mergeSched sch xs ys) : a ∈ xs ∨ a ∈ ys :=
  List.mem_append.mp ((mergeSched_perm sch xs ys).mem_iff.mp h)

lemma publishOne_appendedUnits (s : ShellCast) (ts : String) (b : Bool) (line : String)
    (acc : PublishAcc) :
    (publishOne s ts b line acc).appendedUnits
      = acc.appendedUnits ++ [formatOutput s ts line ++ "\n"] := by
  unfold publishOne
  split <;> split <;> split <;> rfl

lemma publishOne_buffer (s : ShellCast) (ts : String) (b : Bool) (line : String)
    (acc : PublishAcc) :
    (publishOne s ts b line acc).buffer
      = acc.buffer ++ (formatOutput s ts line ++ "\n") := by
  unfold publishOne
  split <;> split <;> split <;> simp [String.append_assoc]

lemma publishAll_appendedUnits (s : ShellCast) (clock : Nat → String)
    (evs : List (Bool × String)) : ∀ (n : Nat) (acc : PublishAcc),
    (publishAll s clock evs n acc).appendedUnits
      = acc.appendedUnits
        ++ (List.enumFrom n evs).map (fun p => formatOutput s (clock p.1) p.2.2 ++ "\n") := by
  induction evs with
  | nil => intro n acc; simp [publishAll]
  | cons ev rest ih =>
      intro n acc
      simp [publishAll, List.enumFrom_cons, ih, publishOne_appendedUnits]

/-- Concatenation of a list of strings, in order (the shape the Go loop
buffer += unit produces). -/
def strConcat (ls : List String) : String := ls.foldr (fun a r => a ++ r) ""

lemma publishAll_buffer (s : ShellCast) (clock : Nat → String)
    (evs : List (Bool × String)) : ∀ (n : Nat) (acc : PublishAcc),
    (publishAll s clock evs n acc).buffer
      = acc.buffer
        ++ strConcat ((List.enumFrom n evs).map (fun p => formatOutput s (clock p.1) p.2.2 ++ "\n")) := by
  induction evs with
  | nil => intro n acc; simp [publishAll, strConcat]
  | cons ev rest ih =>
      intro n acc
      simp [publishAll, List.enumFrom_cons, ih, publishOne_buffer, strConcat,
        String.append_assoc]

/-! ## Claim C9 -/

/-- Claim C9: a theme name outside the presets makes Config.ApplyTheme fail
without touching the Config (the error return leaves the receiver as it
was); a preset name yields a Config whose ThemeName, FontColor and
BackgroundColor are exactly the preset values while every other field is
unchanged. -/
theorem applyTheme_spec (c : Config) (name : String) :
    match GetThemePresets name with
    | none => c.ApplyTheme name = Except.error ("theme " ++ name ++ " not found")
    | some t =>
        ∃ c2, c.ApplyTheme name = Except.ok c2
          ∧ c2.ThemeName = name
          ∧ c2.FontColor = t.FontColor
          ∧ c2.BackgroundColor = t.BackgroundColor
          ∧ c2.RTMPUrl = c.RTMPUrl
          ∧ c2.FFmpegPath = c.FFmpegPath
          ∧ c2.FontSize = c.FontSize
          ∧ c2.OutputFile = c.OutputFile
          ∧ c2.ShowTimestamp = c.ShowTimestamp
          ∧ c2.TimestampFormat = c.TimestampFormat
          ∧ c2.ScreenWidth = c.ScreenWidth
          ∧ c2.ScreenHeight = c.ScreenHeight
          ∧ c2.RecordSession = c.RecordSession
          ∧ c2.RecordPath = c.RecordPath
          ∧ c2.SplitScreen = c.SplitScreen
          ∧ c2.SplitCommands = c.SplitCommands := by
  cases h : GetThemePresets name with
  | none => simp [Config.ApplyTheme, h]
  | some t =>
      simp only [Config.ApplyTheme, h]
      exact ⟨_, rfl, rfl, rfl, rfl, rfl, rfl, rfl, rfl, rfl, rfl, rfl, rfl, rfl, rfl, rfl, rfl⟩

/-! ## Claim C10 -/

/-- Claim C10: a missing config file makes LoadConfig return the defaults
with no error; an unreadable file returns the defaults with an error; file
contents are decoded into a Config initialised from the defaults, the
result is returned even when decoding fails, and an error is reported
exactly when the decode fails. -/
theorem loadConfig_spec (u : String → Config → Option String × Config) (m d : String) :
    LoadConfig ReadOutcome.notExist u = (GetDefaultConfig, none)
    ∧ LoadConfig (ReadOutcome.readErr m) u
        = (GetDefaultConfig, some ("error reading config file: " ++ m))
    ∧ (LoadConfig (ReadOutcome.content d) u).1 = (u d GetDefaultConfig).2
    ∧ ((LoadConfig (ReadOutcome.content d) u).2.isSome
        ↔ (u d GetDefaultConfig).1.isSome) := by
  refine ⟨rfl, rfl, ?_, ?_⟩ <;>
    rcases hu : u d GetDefaultConfig with ⟨_ | e, c⟩ <;>
      simp [LoadConfig, hu]

/-! ## Claim C4 -/

/-- A session state with timestamps enabled, for concrete evaluations. -/
def tsOnState : ShellCast :=
  NewShellCast { GetDefaultConfig with ShowTimestamp := true } 0

/-- Claim C4 counterexample: in split mode with timestamps on, the code
formats the tagged line as timestamp bracket first, then the tag, then the
raw content; the claimed order (tag before the timestamp bracket) does not
match the produced line.  Shown both on formatOutput with the tag folded in
(as ExecuteSplitCommands calls it) and on the published console line of a
one-command split run. -/
theorem formatOrder_counterexample :
    formatOutput tsOnState "12:00:00" ("[CMD1] " ++ "hello")
      = "[12:00:00] [CMD1] hello"
    ∧ formatOutput tsOnState "12:00:00" ("[CMD1] " ++ "hello")
      ≠ "[CMD1] " ++ "[12:00:00] " ++ "hello"
    ∧ (runSplitOne tsOnState (fun _ => "12:00:00") "[CMD1] " "echo hello"
        (SpawnOutcome.started ["hello"] [] none) []).conOut
      = ["[12:00:00] [CMD1] hello", "[CMD1] Command completed"] := by
  refine ⟨by decide, by decide, by decide⟩

/-- Claim C4 as amended: the tag is applied to the raw content before
formatting, so the formatted line is the optional timestamp bracket first,
then the tag, then the raw content. -/
theorem formatOrder_amended (s : ShellCast) (ts tag raw : String) :
    formatOutput s ts (tag ++ raw)
      = (if s.config.ShowTimestamp then "[" ++ ts ++ "] " else "") ++ tag ++ raw := by
  unfold formatOutput
  split <;> simp [String.append_assoc]

/-! ## Claim C6 -/

/-- Claim C6: each of the four state-conflict errors is returned with the
Session state exactly as it was and with no file operation performed. -/
theorem conflict_errors_pure (s1 s2 s3 s4 : ShellCast)
    (e1 : StreamStartEnv) (e2 : StreamStopEnv) (e3 : RecStartEnv) (e4 : RecStopEnv)
    (h1 : s1.streaming = true) (h2 : s2.streaming = false)
    (h3 : s3.recording = true) (h4 : s4.recording = false) :
    s1.StartStreaming e1 = (s1, some "already streaming", [])
    ∧ s2.StopStreaming e2 = (s2, some "not streaming", [])
    ∧ s3.StartRecording e3 = (s3, some "already recording", [])
    ∧ s4.StopRecording e4 = (s4, some "not recording", []) := by
  refine ⟨?_, ?_, ?_, ?_⟩ <;>
    simp [ShellCast.StartStreaming, ShellCast.StopStreaming,
      ShellCast.StartRecording, ShellCast.StopRecording, h1, h2, h3, h4]

/-- A session state with streaming active, for concrete evaluations. -/
def streamingOnState : ShellCast :=
  { NewShellCast GetDefaultConfig 0 with streaming := true, streamProc := some 7 }

/-- A session state with recording active, for concrete evaluations. -/
def recordingOnState : ShellCast :=
  { NewShellCast GetDefaultConfig 0 with
      recording := true, recordPath := "./recordings/shellcast_t.txt" }

/-- An all-success StartStreaming environment, for concrete evaluations. -/
def okStreamStartEnv : StreamStartEnv :=
  { tempName := Except.ok "/tmp/shellcast_123.txt", writeErr := none, startPid := Except.ok 7 }

/-- An all-success StopStreaming environment, for concrete evaluations. -/
def okStreamStopEnv : StreamStopEnv := { killErr := none }

/-- An all-success StartRecording environment for a call at instant 10. -/
def okRecStartEnv : RecStartEnv :=
  { dirExists := true, mkdirErr := none, now := 10,
    nowName := "2025-01-01_00-00-10", headerNow := "2025-01-01 00:00:10",
    cmdline := "shellcast -record top", writeErr := none }

/-- An all-success StopRecording environment for a call at instant 25. -/
def okRecStopEnv : RecStopEnv :=
  { now := 25, endNow := "2025-01-01 00:00:25", appendErr := none }

/-- Witness for conflict_errors_pure at concrete states and environments. -/
theorem conflict_errors_pure_witness :
    streamingOnState.streaming = true
    ∧ (NewShellCast GetDefaultConfig 0).streaming = false
    ∧ recordingOnState.recording = true
    ∧ (NewShellCast GetDefaultConfig 0).recording = false
    ∧ (streamingOnState.StartStreaming okStreamStartEnv
        = (streamingOnState, some "already streaming", [])
      ∧ (NewShellCast GetDefaultConfig 0).StopStreaming okStreamStopEnv
        = (NewShellCast GetDefaultConfig 0, some "not streaming", [])
      ∧ recordingOnState.StartRecording okRecStartEnv
        = (recordingOnState, some "already recording", [])
      ∧ (NewShellCast GetDefaultConfig 0).StopRecording okRecStopEnv
        = (NewShellCast GetDefaultConfig 0, some "not recording", [])) :=
  ⟨rfl, rfl, rfl, rfl,
    conflict_errors_pure streamingOnState (NewShellCast GetDefaultConfig 0)
      recordingOnState (NewShellCast GetDefaultConfig 0)
      okStreamStartEnv okStreamStopEnv okRecStartEnv okRecStopEnv rfl rfl rfl rfl⟩

/-! ## Claim C5 -/

/-- The part of the claimed state invariant that the code maintains. -/
def sessionInv (s : ShellCast) : Prop :=
  s.streamProc.isSome = s.streaming ∧ (s.recording = false ∨ s.recordPath ≠ "")

lemma ne_empty_of_length_pos (s : String) (h : 0 < s.length) : s ≠ "" := by
  intro he
  rw [he] at h
  simp at h

lemma joinPath_shellcast_ne_empty (base nm : String) :
    joinPath base ("shellcast_" ++ nm ++ ".txt") ≠ "" := by
  have h10 : ("shellcast_" : String).length = 10 := rfl
  have h4 : (".txt" : String).length = 4 := rfl
  have hlen : 0 < ("shellcast_" ++ nm ++ ".txt").length := by
    rw [String.length_append, String.length_append, h10, h4]
    omega
  unfold joinPath
  split
  · exact ne_empty_of_length_pos _ hlen
  · apply ne_empty_of_length_pos
    rw [String.length_append]
    omega

lemma inv_startStreaming (s : ShellCast) (env : StreamStartEnv) (h : sessionInv s) :
    sessionInv (s.StartStreaming env).1 := by
  obtain ⟨tn, we, sp⟩ := env
  unfold ShellCast.StartStreaming
  by_cases hs : s.streaming
  · simpa [hs] using h
  · by_cases ho : s.config.OutputFile = "" <;>
      rcases tn with m | nm <;> rcases we with _ | m2 <;> rcases sp with m3 | pid <;>
        simp_all [sessionInv]

lemma inv_stopStreaming (s : ShellCast) (env : StreamStopEnv) (h : sessionInv s) :
    sessionInv (s.StopStreaming env).1 := by
  obtain ⟨ke⟩ := env
  unfold ShellCast.StopStreaming
  by_cases hg : (!s.streaming || s.streamProc.isNone) = true
  · simpa [hg] using h
  · rcases ke with _ | m <;> by_cases ho : (s.config.OutputFile != "") = true <;>
      simp_all [sessionInv]

lemma inv_startRecording (s : ShellCast) (env : RecStartEnv) (h : sessionInv s) :
    sessionInv (s.StartRecording env).1 := by
  obtain ⟨de, me, now, nn, hn, cl, we⟩ := env
  unfold ShellCast.StartRecording
  by_cases hr : s.recording
  · simpa [hr] using h
  · by_cases hd : de = true <;> rcases me with _ | m <;> rcases we with _ | m2 <;>
      simp_all [sessionInv, joinPath_shellcast_ne_empty]

lemma inv_stopRecording (s : ShellCast) (env : RecStopEnv) (h : sessionInv s) :
    sessionInv (s.StopRecording env).1 := by
  obtain ⟨now, en, ae⟩ := env
  unfold ShellCast.StopRecording
  by_cases hr : s.recording <;> rcases ae with _ | m <;> simp_all [sessionInv]

lemma inv_condStopStreaming (s : ShellCast) (e : StreamStopEnv) (h : sessionInv s) :
    sessionInv (if s.streaming then s.StopStreaming e else (s, none, [])).1 := by
  by_cases hs : s.streaming
  · simpa [hs] using inv_stopStreaming s e h
  · simpa [hs] using h

lemma inv_condStopRecording (s : ShellCast) (e : RecStopEnv) (h : sessionInv s) :
    sessionInv (if s.recording then s.StopRecording e else (s, none, [])).1 := by
  by_cases hr : s.recording
  · simpa [hr] using inv_stopRecording s e h
  · simpa [hr] using h

lemma inv_cleanup (s : ShellCast) (e1 : StreamStopEnv) (e2 : RecStopEnv)
    (h : sessionInv s) : sessionInv (s.Cleanup e1 e2).1 :=
  inv_condStopRecording _ e2 (inv_condStopStreaming s e1 h)

lemma inv_applyOp (s : ShellCast) (op : SessionOp) (h : sessionInv s) :
    sessionInv (applyOp s op) := by
  cases op with
  | strmStart env => exact inv_startStreaming s env h
  | strmStop env => exact inv_stopStreaming s env h
  | recStart env => exact inv_startRecording s env h
  | recStop env => exact inv_stopRecording s env h
  | clean e1 e2 => exact inv_cleanup s e1 e2 h

/-- Claim C5 counterexample: StartRecording then StopRecording (both
succeeding) leaves recording = false while recordPath is still set, so the
claimed iff between the recording flag and the recording sink fails in a
reachable state. -/
theorem sessionState_counterexample :
    (runOps GetDefaultConfig 0
        [SessionOp.recStart okRecStartEnv, SessionOp.recStop okRecStopEnv]).recording = false
    ∧ (runOps GetDefaultConfig 0
        [SessionOp.recStart okRecStartEnv, SessionOp.recStop okRecStopEnv]).recordPath
      = "./recordings/shellcast_2025-01-01_00-00-10.txt"
    ∧ (runOps GetDefaultConfig 0
        [SessionOp.recStart okRecStartEnv, SessionOp.recStop okRecStopEnv]).recordPath
      ≠ "" := by
  refine ⟨by decide, by decide, by decide⟩

/-- Claim C5 as amended: in every state reachable by lifecycle operations
the streaming handle is non-null iff streaming is set, and whenever the
recording flag is set the recording path is nonempty; the recording path
may however stay set after recording stops, since StopRecording does not
clear it. -/
theorem sessionState_amended (config : Config) (t0 : Nat) (ops : List SessionOp) :
    (runOps config t0 ops).streamProc.isSome = (runOps config t0 ops).streaming
    ∧ ((runOps config t0 ops).recording = false ∨ (runOps config t0 ops).recordPath ≠ "") := by
  have hfold : ∀ (l : List SessionOp) (s : ShellCast), sessionInv s → sessionInv (l.foldl applyOp s) := by
    intro l
    induction l with
    | nil => intro s h; exact h
    | cons op rest ih => intro s h; exact ih _ (inv_applyOp s op h)
  have h0 : sessionInv (NewShellCast config t0) := by
    simp [sessionInv, NewShellCast]
  exact hfold ops _ h0

/-! ## Claim C3 -/

lemma startStreaming_startTime (s : ShellCast) (env : StreamStartEnv) :
    (s.StartStreaming env).1.startTime = s.startTime := by
  obtain ⟨tn, we, sp⟩ := env
  unfold ShellCast.StartStreaming
  by_cases hs : s.streaming <;> by_cases ho : s.config.OutputFile = "" <;>
    rcases tn with m | nm <;> rcases we with _ | m2 <;> rcases sp with m3 | pid <;>
      simp_all

lemma stopStreaming_startTime (s : ShellCast) (env : StreamStopEnv) :
    (s.StopStreaming env).1.startTime = s.startTime := by
  obtain ⟨ke⟩ := env
  unfold ShellCast.StopStreaming
  by_cases hg : (!s.streaming || s.streamProc.isNone) = true <;>
    rcases ke with _ | m <;> by_cases ho : (s.config.OutputFile != "") = true <;>
      simp_all

lemma startRecording_startTime (s : ShellCast) (env : RecStartEnv) :
    (s.StartRecording env).1.startTime = s.startTime := by
  obtain ⟨de, me, now, nn, hn, cl, we⟩ := env
  unfold ShellCast.StartRecording
  by_cases hr : s.recording <;> by_cases hd : de = true <;>
    rcases me with _ | m <;> rcases we with _ | m2 <;>
      simp_all

lemma stopRecording_startTime (s : ShellCast) (env : RecStopEnv) :
    (s.StopRecording env).1.startTime = s.startTime := by
  obtain ⟨now, en, ae⟩ := env
  unfold ShellCast.StopRecording
  by_cases hr : s.recording <;> rcases ae with _ | m <;> simp_all

lemma cleanup_startTime (s : ShellCast) (e1 : StreamStopEnv) (e2 : RecStopEnv) :
    (s.Cleanup e1 e2).1.startTime = s.startTime := by
  have t2 : ∀ t : ShellCast,
      (if t.recording then t.StopRecording e2 else (t, none, [])).1.startTime = t.startTime := by
    intro t
    by_cases hr : t.recording <;> simp [hr, stopRecording_startTime]
  have t1 : (if s.streaming then s.StopStreaming e1 else (s, none, [])).1.startTime
      = s.startTime := by
    by_cases hs : s.streaming <;> simp [hs, stopStreaming_startTime]
  exact (t2 _).trans t1

lemma applyOp_startTime (s : ShellCast) (op : SessionOp) :
    (applyOp s op).startTime = s.startTime := by
  cases op with
  | strmStart env => exact startStreaming_startTime s env
  | strmStop env => exact stopStreaming_startTime s env
  | recStart env => exact startRecording_startTime s env
  | recStop env => exact stopRecording_startTime s env
  | clean e1 e2 => exact cleanup_startTime s e1 e2

/-- Claim C3 counterexample: a session created at instant 0, with
StartRecording called at instant 10 (okRecStartEnv.now, the header renders
that instant) and StopRecording at instant 25 (okRecStopEnv.now), appends a
footer whose duration is 25 seconds - the stop time minus the session
creation time - and not the 15 seconds the claim (stop time minus the
recording start time) demands. -/
theorem recordingDuration_counterexample :
    okRecStartEnv.now = 10
    ∧ okRecStopEnv.now = 25
    ∧ ((NewShellCast GetDefaultConfig 0).StartRecording okRecStartEnv).1.StopRecording
        okRecStopEnv
      = ({ ((NewShellCast GetDefaultConfig 0).StartRecording okRecStartEnv).1 with
            recording := false }, none,
          [FileOp.append "./recordings/shellcast_2025-01-01_00-00-10.txt"
            (recordingFooter "2025-01-01 00:00:25" 25)])
    ∧ okRecStopEnv.now - okRecStartEnv.now = 15
    ∧ recordingFooter "2025-01-01 00:00:25" 25 ≠ recordingFooter "2025-01-01 00:00:25" 15 := by
  refine ⟨rfl, rfl, by decide, rfl, by decide⟩

/-- Claim C3 as amended: the duration base is set when the Session is
created (NewShellCast), no lifecycle operation - StartRecording included -
ever changes it, and the footer appended by StopRecording reports stop time
minus that Session creation time. -/
theorem recordingDuration_amended (config : Config) (t0 : Nat) (s : ShellCast)
    (op : SessionOp) (env : RecStopEnv)
    (hrec : s.recording = true) (happ : env.appendErr = none) :
    (NewShellCast config t0).startTime = t0
    ∧ (applyOp s op).startTime = s.startTime
    ∧ s.StopRecording env
      = ({ s with recording := false }, none,
          [FileOp.append s.recordPath (recordingFooter env.endNow (env.now - s.startTime))]) := by
  refine ⟨rfl, applyOp_startTime s op, ?_⟩
  simp [ShellCast.StopRecording, hrec, happ]

/-- Witness for recordingDuration_amended at a concrete recording state. -/
theorem recordingDuration_amended_witness :
    recordingOnState.recording = true
    ∧ okRecStopEnv.appendErr = none
    ∧ ((NewShellCast GetDefaultConfig 5).startTime = 5
      ∧ (applyOp recordingOnState (SessionOp.recStop okRecStopEnv)).startTime
          = recordingOnState.startTime
      ∧ recordingOnState.StopRecording okRecStopEnv
        = ({ recordingOnState with recording := false }, none,
            [FileOp.append recordingOnState.recordPath
              (recordingFooter okRecStopEnv.endNow
                (okRecStopEnv.now - recordingOnState.startTime))])) :=
  ⟨rfl, rfl,
    recordingDuration_amended GetDefaultConfig 5 recordingOnState
      (SessionOp.recStop okRecStopEnv) okRecStopEnv rfl rfl⟩

/-! ## Claim C2 -/

/-- Claim C2, against the code: with a caller-configured persistent capture
file path, StartStreaming creates no temporary file (the path is the
caller own path), yet StopStreaming removes that very file.  The spec flags this
deletion as unintended; the code performs it unconditionally. -/
theorem stopStreaming_removes_persistent_file :
    (((NewShellCast { GetDefaultConfig with OutputFile := "/home/user/notes.txt" } 0
        ).StartStreaming okStreamStartEnv).2.1 = none)
    ∧ ((NewShellCast { GetDefaultConfig with OutputFile := "/home/user/notes.txt" } 0
        ).StartStreaming okStreamStartEnv).2.2
      = [FileOp.write "/home/user/notes.txt" ""]
    ∧ (((NewShellCast { GetDefaultConfig with OutputFile := "/home/user/notes.txt" } 0
        ).StartStreaming okStreamStartEnv).1.StopStreaming okStreamStopEnv).2.1 = none
    ∧ (((NewShellCast { GetDefaultConfig with OutputFile := "/home/user/notes.txt" } 0
        ).StartStreaming okStreamStartEnv).1.StopStreaming okStreamStopEnv).2.2
      = [FileOp.remove "/home/user/notes.txt"] := by
  refine ⟨by decide, by decide, by decide, by decide⟩

/-! ## Claim C8 -/

/-- Claim C8, against the code: strings.Split never returns an empty slice,
so the empty-command guard of ExecuteCommand can never fire; for the empty
command string the split yields one empty field, the code proceeds to the
pipes and to cmd.Start (the spawn attempt), and the error returned is the
start error, not the empty-command caller error. -/
theorem emptyCommand_guard_dead :
    (∀ command : String, splitGo command ≠ [])
    ∧ splitGo "" = [""]
    ∧ ((NewShellCast GetDefaultConfig 0).ExecuteCommand (fun _ => "") ""
        (SpawnOutcome.startErr "exec: no command") []).result
      = some ("error starting command: exec: no command")
    ∧ ((NewShellCast GetDefaultConfig 0).ExecuteCommand (fun _ => "") ""
        (SpawnOutcome.startErr "exec: no command") []).result
      ≠ some "empty command"
    ∧ ((NewShellCast GetDefaultConfig 0).ExecuteCommand (fun _ => "") ""
        (SpawnOutcome.startErr "exec: no command") []).startAttempted = true :=
  ⟨fun command => splitGo_ne_nil command, by decide, by decide, by decide, by decide⟩

/-! ## Claim C1 -/

/-- A single output line of 70000 characters, beyond the 64 KiB default
token limit of bufio.Scanner. -/
def longLine : String := String.mk (List.replicate 70000 'a')

/-- For children whose lines all pass the scanner, an exit-0 run of
ExecuteCommand returns success and appends to the buffer exactly one
formatted, newline-terminated unit per line of the two streams, in some
interleaving of the two per-stream orders.  (Supporting theorem; claim C1
fails on the code only through the scanner limit.) -/
theorem executeCommand_exit0_buffer (s : ShellCast) (clock : Nat → String)
    (command : String) (outL errL : List String) (schedule : List Bool) :
    ((s.ExecuteCommand clock command (SpawnOutcome.started outL errL none) schedule).result
      = none)
    ∧ ∃ evs : List (Bool × String),
        List.Perm evs
          ((scannerLines outL).map (fun l => (true, l))
            ++ (scannerLines errL).map (fun l => (false, l)))
        ∧ (s.ExecuteCommand clock command
            (SpawnOutcome.started outL errL none) schedule).effects.appendedUnits
          = (List.enumFrom 0 evs).map (fun p => formatOutput s (clock p.1) p.2.2 ++ "\n")
        ∧ (s.ExecuteCommand clock command
            (SpawnOutcome.started outL errL none) schedule).state.outputBuffer
          = s.outputBuffer
            ++ strConcat ((List.enumFrom 0 evs).map (fun p => formatOutput s (clock p.1) p.2.2 ++ "\n")) := by
  have hc : ¬((splitGo command).length = 0) := splitGo_length_ne_zero _
  refine ⟨?_, mergeSched schedule
      ((scannerLines outL).map (fun l => (true, l)))
      ((scannerLines errL).map (fun l => (false, l))), mergeSched_perm _ _ _, ?_, ?_⟩ <;>
    simp only [ShellCast.ExecuteCommand, if_neg hc, publishAll_appendedUnits,
      publishAll_buffer, List.nil_append]


/-- Claim C1, against the code: a child that writes one 70000-byte line on
stdout and exits 0 makes ExecuteCommand return success, yet the Session
buffer gains nothing - the default bufio.Scanner stops at the oversized
line and the read loop ends silently, so the buffer does not contain the
lines the process wrote. -/
theorem oversizedLine_dropped :
    longLine.length = 70000
    ∧ ((NewShellCast GetDefaultConfig 0).ExecuteCommand (fun _ => "12:00:00")
        "emit-long-line" (SpawnOutcome.started [longLine] [] none) []).result = none
    ∧ ((NewShellCast GetDefaultConfig 0).ExecuteCommand (fun _ => "12:00:00")
        "emit-long-line" (SpawnOutcome.started [longLine] [] none) []).state.outputBuffer
      = ""
    ∧ ((NewShellCast GetDefaultConfig 0).ExecuteCommand (fun _ => "12:00:00")
        "emit-long-line" (SpawnOutcome.started [longLine] [] none) []).effects.appendedUnits
      = [] := by
  have hlen : longLine.length = 70000 := by
    have h : longLine.length = (List.replicate 70000 'a').length := rfl
    rw [h, List.length_replicate]
  have hscan : scannerLines [longLine] = [] := by
    have hp : (decide (longLine.length < 65536)) = false := by rw [hlen]; rfl
    unfold scannerLines
    rw [List.takeWhile_cons]
    simp only [hp, Bool.false_eq_true, if_false]
  obtain ⟨hres, evs, hperm, hunits, hbuf⟩ :=
    executeCommand_exit0_buffer (NewShellCast GetDefaultConfig 0) (fun _ => "12:00:00")
      "emit-long-line" [longLine] [] []
  have h0 : ((scannerLines [longLine]).map (fun l => ((true : Bool), l))
      ++ (scannerLines ([] : List String)).map (fun l => ((false : Bool), l))) = [] := by
    rw [hscan]
    rfl
  have hevs : evs = [] := List.Perm.eq_nil (h0 ▸ hperm)
  refine ⟨hlen, hres, ?_, ?_⟩
  · rw [hbuf, hevs]
    rfl
  · rw [hunits, hevs]
    rfl

/-! ## Claim C7 -/

lemma executeSplit_result_none (s : ShellCast) (clock : Nat → String)
    (commands : List String) (envs : Nat → SpawnOutcome) (scheds : Nat → List Bool)
    (h : commands.length ≠ 0) :
    (s.ExecuteSplitCommands clock commands envs scheds).1 = none := by
  simp [ShellCast.ExecuteSplitCommands, h]

lemma executeSplit_length (s : ShellCast) (clock : Nat → String)
    (commands : List String) (envs : Nat → SpawnOutcome) (scheds : Nat → List Bool)
    (h : commands.length ≠ 0) :
    (s.ExecuteSplitCommands clock commands envs scheds).2.length = commands.length := by
  simp [ShellCast.ExecuteSplitCommands, h, List.enumFrom_length]

lemma executeSplit_getD (s : ShellCast) (clock : Nat → String)
    (commands : List String) (envs : Nat → SpawnOutcome) (scheds : Nat → List Bool)
    (i : Nat) (hi : i < commands.length) :
    (s.ExecuteSplitCommands clock commands envs scheds).2.getD i default
      = runSplitOne s clock ("[CMD" ++ toString (i + 1) ++ "] ")
          (commands.getD i default) (envs i) (scheds i) := by
  have h : ¬(commands.length = 0) := by omega
  have hi2 : i < ((List.enumFrom 0 commands).map (fun p =>
      runSplitOne s clock ("[CMD" ++ toString (p.1 + 1) ++ "] ") p.2
        (envs p.1) (scheds p.1))).length := by
    simpa [List.enumFrom_length] using hi
  simp only [ShellCast.ExecuteSplitCommands, h, if_false, ite_false]
  rw [List.getD_eq_getElem _ _ hi2, List.getElem_map, List.getElem_enumFrom,
    List.getD_eq_getElem _ _ hi]
  simp

lemma runSplitOne_started_events (s : ShellCast) (clock : Nat → String)
    (tag command : String) (outL errL : List String) (ex : Option String)
    (sch : List Bool) :
    (runSplitOne s clock tag command (SpawnOutcome.started outL errL ex) sch).completed
      = true
    ∧ ∀ u ∈ (runSplitOne s clock tag command
        (SpawnOutcome.started outL errL ex) sch).bufferAppends,
        ∃ ts raw, u = formatOutput s ts (tag ++ raw) ++ "\n" := by
  have hc : ¬((splitGo command).length = 0) := splitGo_length_ne_zero _
  constructor
  · simp only [runSplitOne, if_neg hc]
  · intro u hu
    simp only [runSplitOne, if_neg hc] at hu
    rw [publishAll_appendedUnits] at hu
    simp only [List.nil_append, List.mem_map] at hu
    obtain ⟨p, hp, rfl⟩ := hu
    rcases mem_mergeSched (List.snd_mem_of_mem_enumFrom hp) with hx | hx <;>
    · obtain ⟨l, _, hpe⟩ := List.mem_map.mp hx
      exact ⟨clock p.1, l, by rw [← hpe]⟩

/-- Environment for a split run whose second command fails to spawn while
the first runs normally. -/
def splitEnvFail : Nat → SpawnOutcome := fun i =>
  if i = 1 then SpawnOutcome.startErr "exec: not found"
  else SpawnOutcome.started ["A"] [] none

/-- Environment for a split run in which both commands run, the second
emitting a different line. -/
def splitEnvOk : Nat → SpawnOutcome := fun i =>
  if i = 1 then SpawnOutcome.started ["B"] [] none
  else SpawnOutcome.started ["A"] [] none

/-- Claim C7 counterexample: ExecuteSplitCommands returns the same bare nil
value whether the second command spawn-fails or runs to completion - the
return value is a single error, not one exit outcome per command, so it
cannot report per-command outcomes. -/
theorem runSplit_counterexample :
    splitEnvFail 1 = SpawnOutcome.startErr "exec: not found"
    ∧ splitEnvOk 1 = SpawnOutcome.started ["B"] [] none
    ∧ ((NewShellCast GetDefaultConfig 0).ExecuteSplitCommands (fun _ => "T")
        ["echo A", "boom"] splitEnvFail (fun _ => [])).1
      = ((NewShellCast GetDefaultConfig 0).ExecuteSplitCommands (fun _ => "T")
        ["echo A", "boom"] splitEnvOk (fun _ => [])).1
    ∧ ((NewShellCast GetDefaultConfig 0).ExecuteSplitCommands (fun _ => "T")
        ["echo A", "boom"] splitEnvFail (fun _ => [])).1 = none :=
  ⟨by decide, by decide, by decide, by decide⟩

/-- Claim C7 as amended: with a nonempty command list, ExecuteSplitCommands
waits for every per-command goroutine and then returns a single nil error
(it does not return per-command exit outcomes; cmd.Wait results are
discarded); it produces one event record per command in input order; each
events of each command depend only on that command, its environment and its
schedule, so a spawn failure elsewhere leaves them unchanged; and every
buffer line of a started command carries the 1-based [CMD<n>]
tag applied to the raw line before formatting. -/
theorem runSplit_amended (s : ShellCast) (clock : Nat → String)
    (commands : List String) (envs envs2 : Nat → SpawnOutcome)
    (scheds scheds2 : Nat → List Bool) (i : Nat)
    (outL errL : List String) (ex : Option String)
    (hne : commands.length ≠ 0) (hi : i < commands.length)
    (henv : envs i = envs2 i) (hsch : scheds i = scheds2 i)
    (hstart : envs i = SpawnOutcome.started outL errL ex) :
    (s.ExecuteSplitCommands clock commands envs scheds).1 = none
    ∧ (s.ExecuteSplitCommands clock commands envs scheds).2.length = commands.length
    ∧ (s.ExecuteSplitCommands clock commands envs scheds).2.getD i default
      = (s.ExecuteSplitCommands clock commands envs2 scheds2).2.getD i default
    ∧ ((s.ExecuteSplitCommands clock commands envs scheds).2.getD i default).completed
      = true
    ∧ ∀ u ∈ ((s.ExecuteSplitCommands clock commands envs scheds).2.getD i
        default).bufferAppends,
        ∃ ts raw, u = formatOutput s ts ("[CMD" ++ toString (i + 1) ++ "] " ++ raw) ++ "\n" := by
  refine ⟨executeSplit_result_none s clock commands envs scheds hne,
    executeSplit_length s clock commands envs scheds hne, ?_, ?_, ?_⟩
  · rw [executeSplit_getD s clock commands envs scheds i hi,
      executeSplit_getD s clock commands envs2 scheds2 i hi, henv, hsch]
  · rw [executeSplit_getD s clock commands envs scheds i hi, hstart]
    exact (runSplitOne_started_events s clock _ _ outL errL ex _).1
  · rw [executeSplit_getD s clock commands envs scheds i hi, hstart]
    exact (runSplitOne_started_events s clock _ _ outL errL ex _).2

/-- Witness for runSplit_amended: two concrete commands, the second
spawn-failing in one environment and running in the other, observed at the
first command. -/
theorem runSplit_amended_witness :
    (["echo A", "boom"].length ≠ 0)
    ∧ (0 < ["echo A", "boom"].length)
    ∧ splitEnvFail 0 = splitEnvOk 0
    ∧ ((fun _ : Nat => ([] : List Bool)) 0 = (fun _ : Nat => ([] : List Bool)) 0)
    ∧ splitEnvFail 0 = SpawnOutcome.started ["A"] [] none
    ∧ (((NewShellCast GetDefaultConfig 0).ExecuteSplitCommands (fun _ => "T")
          ["echo A", "boom"] splitEnvFail (fun _ => [])).1 = none
      ∧ ((NewShellCast GetDefaultConfig 0).ExecuteSplitCommands (fun _ => "T")
          ["echo A", "boom"] splitEnvFail (fun _ => [])).2.length
        = ["echo A", "boom"].length
      ∧ ((NewShellCast GetDefaultConfig 0).ExecuteSplitCommands (fun _ => "T")
          ["echo A", "boom"] splitEnvFail (fun _ => [])).2.getD 0 default
        = ((NewShellCast GetDefaultConfig 0).ExecuteSplitCommands (fun _ => "T")
          ["echo A", "boom"] splitEnvOk (fun _ => [])).2.getD 0 default
      ∧ (((NewShellCast GetDefaultConfig 0).ExecuteSplitCommands (fun _ => "T")
          ["echo A", "boom"] splitEnvFail (fun _ => [])).2.getD 0 default).completed
        = true
      ∧ ∀ u ∈ (((NewShellCast GetDefaultConfig 0).ExecuteSplitCommands (fun _ => "T")
          ["echo A", "boom"] splitEnvFail (fun _ => [])).2.getD 0 default).bufferAppends,
          ∃ ts raw, u = formatOutput (NewShellCast GetDefaultConfig 0) ts
            ("[CMD" ++ toString (0 + 1) ++ "] " ++ raw) ++ "\n") :=
  ⟨by decide, by decide, by decide, rfl, by decide,
    runSplit_amended (NewShellCast GetDefaultConfig 0) (fun _ => "T")
      ["echo A", "boom"] splitEnvFail splitEnvOk (fun _ => []) (fun _ => []) 0
      ["A"] [] none (by decide) (by decide) (by decide) rfl (by decide)⟩
